import Mathlib

/-!
Verification of the Crossplane package-lock resolver
(`internal/controller/pkg/resolver/reconciler.go`).

The development embeds, as executable Lean definitions:

* the semantic-version parsing, comparison and constraint checking the
  reconciler relies on (the Masterminds semver v1 library, an external
  dependency of the source file, modelled here over `List Char` so that
  concrete instances evaluate by `decide`);
* the version-selection loop of `Reconcile` (lines 245-261 of the source);
* the whole `Reconcile` pass as a pure function of an environment record
  holding the results of each collaborator call (lock store, finalizer,
  injected DAG engine, reference parser, tag fetcher, package creator).

Theorems about these definitions settle the frozen claims C1-C10.
-/

/-! ## Character-list utilities (kernel-friendly string processing) -/

/-- Split a character list on a separator character.  Mirrors
`strings.Split` for a one-character separator: the result is always
non-empty, and empty segments are kept. -/
def splitListOn (sep : Char) : List Char → List (List Char)
  | [] => [[]]
  | c :: cs =>
    if c = sep then [] :: splitListOn sep cs
    else
      match splitListOn sep cs with
      | [] => [[c]]
      | g :: gs => (c :: g) :: gs

/-- Split a character list on the two-character separator `||`, as
`strings.Split(c, "||")` does for constraint strings. -/
def splitOnOrOr : List Char → List (List Char)
  | [] => [[]]
  | '|' :: '|' :: cs => [] :: splitOnOrOr cs
  | c :: cs =>
    match splitOnOrOr cs with
    | [] => [[c]]
    | g :: gs => (c :: g) :: gs

/-- Trim whitespace from both ends, as `strings.TrimSpace` does. -/
def trimChars (l : List Char) : List Char :=
  ((l.dropWhile Char.isWhitespace).reverse.dropWhile Char.isWhitespace).reverse

/-- Decimal value of a digit list (the lists fed to it are all-digit). -/
def digitsToNat (l : List Char) : Nat :=
  l.foldl (fun n c => n * 10 + (c.toNat - 48)) 0

/-- Parse a non-empty all-digit list, as `strconv.ParseInt` accepts for the
numeric slots matched by the semver regular expression (leading zeros are
accepted, exactly as the library accepts them). -/
def parseNumL (l : List Char) : Option Nat :=
  if l = [] then none
  else if l.all Char.isDigit then some (digitsToNat l)
  else none

/-- Model of Go `strconv.ParseInt` on a prerelease identifier: an optional
sign followed by digits. -/
def goParseInt (l : List Char) : Option Int :=
  match l with
  | '-' :: rest => (parseNumL rest).map (fun n => -(n : Int))
  | '+' :: rest => (parseNumL rest).map (fun n => (n : Int))
  | _ => (parseNumL l).map (fun n => (n : Int))

/-- Byte-wise lexicographic comparison of two character lists, as Go's
`<`/`>` on strings (UTF-8 byte order coincides with code-point order). -/
def compareCharList : List Char → List Char → Ordering
  | [], [] => .eq
  | [], _ :: _ => .lt
  | _ :: _, [] => .gt
  | a :: as, b :: bs =>
    if a < b then .lt
    else if b < a then .gt
    else compareCharList as bs

/-- Three-way comparison of naturals, as the library's `compareSegment`. -/
def compareNat (a b : Nat) : Ordering :=
  if a < b then .lt else if a = b then .eq else .gt

/-! ## Semantic versions (model of Masterminds semver v1, `version.go`)

The library is an external dependency of the source file; it is modelled
faithfully for the inputs the resolver feeds it: an optional `v` prefix,
one to three dot-separated numeric components (missing minor/patch default
to 0), an optional `-prerelease` and an optional `+metadata`, with
`Original()` preserving the exact input string.  Arbitrary-precision
naturals stand in for `int64` (overflow of a version component is not
modelled). -/

/-- A parsed semantic version.  `original` is the exact string the version
was parsed from, returned by `Original()`. -/
structure SemVer where
  major : Nat
  minor : Nat
  patch : Nat
  pre : List Char
  metadata : List Char
  original : String
deriving DecidableEq, Repr

/-- Valid dot-separated identifier sequence (`[0-9A-Za-z-]+(\.[0-9A-Za-z-]+)*`),
used for both prerelease and metadata parts. -/
def validDotSeparated (l : List Char) : Bool :=
  (splitListOn '.' l).all (fun p => !p.isEmpty && p.all (fun c => c.isAlphanum || c = '-'))

/-- Build a version from the dot-split numeric components (one to three of
them, missing minor/patch defaulting to 0), prerelease, metadata and
original string. -/
def semverFromParts (parts : List (List Char)) (pre meta : List Char) (orig : String) :
    Option SemVer :=
  match parts with
  | [ma] =>
    match parseNumL ma with
    | some mj => some ⟨mj, 0, 0, pre, meta, orig⟩
    | none => none
  | [ma, mi] =>
    match parseNumL ma, parseNumL mi with
    | some mj, some mn => some ⟨mj, mn, 0, pre, meta, orig⟩
    | _, _ => none
  | [ma, mi, pa] =>
    match parseNumL ma, parseNumL mi, parseNumL pa with
    | some mj, some mn, some pt => some ⟨mj, mn, pt, pre, meta, orig⟩
    | _, _, _ => none
  | _ => none

/-- Parse the version core (after the metadata was split off): the numeric
components are the characters before the first `-`, the prerelease the
characters after it (which must be a valid dot-separated identifier
sequence when present).  `orig` is the full original string. -/
def semverParseMain (core meta : List Char) (orig : String) : Option SemVer :=
  if (core.dropWhile (fun c => c ≠ '-')).length ≠ 0 &&
      !validDotSeparated ((core.dropWhile (fun c => c ≠ '-')).drop 1) then none
  else
    semverFromParts (splitListOn '.' (core.takeWhile (fun c => c ≠ '-')))
      ((core.dropWhile (fun c => c ≠ '-')).drop 1) meta orig

/-- Strip the optional leading `v` allowed by the version syntax. -/
def stripV : List Char → List Char
  | 'v' :: rest => rest
  | l => l

/-- Model of `semver.NewVersion` (v1): strip an optional leading `v`, split
off `+metadata`, then parse numbers and prerelease.  Returns `none` exactly
when the library returns an error. -/
def semverNewVersionCore (cs : List Char) (orig : String) : Option SemVer :=
  match splitListOn '+' (stripV cs) with
  | [core] => semverParseMain core [] orig
  | [core, meta] =>
    if validDotSeparated meta then semverParseMain core meta orig else none
  | _ => none

/-- `semver.NewVersion` on a string tag. -/
def semverNewVersion (s : String) : Option SemVer :=
  semverNewVersionCore s.toList s

/-- Model of the library's `comparePrePart`: equal strings are equal;
an empty part is smaller than any non-empty part; two numeric parts compare
numerically (ties between distinct spellings fall to `lt`, as in the
library); a numeric part is smaller than an alphanumeric part; two
alphanumeric parts compare byte-wise. -/
def comparePrePart (s o : List Char) : Ordering :=
  if s = o then .eq
  else if s = [] then .lt
  else if o = [] then .gt
  else
    match goParseInt s, goParseInt o with
    | some si, some oi => if si > oi then .gt else .lt
    | none, some _ => .gt
    | some _, none => .lt
    | none, none => compareCharList s o

/-- First non-`eq` result over a list of part pairs (the library's loop
over dot-separated prerelease parts). -/
def comparePreParts : List (List Char × List Char) → Ordering
  | [] => .eq
  | (s, o) :: rest =>
    match comparePrePart s o with
    | .eq => comparePreParts rest
    | r => r

/-- Pad a part list with empty parts up to length `n`, as the library's
loop reads an empty string beyond the end of the shorter side. -/
def padPre (l : List (List Char)) (n : Nat) : List (List Char) :=
  l ++ List.replicate (n - l.length) []

/-- Model of the library's `comparePrerelease`. -/
def comparePrerelease (s o : List Char) : Ordering :=
  let sp := splitListOn '.' s
  let op := splitListOn '.' o
  let n := max sp.length op.length
  comparePreParts ((padPre sp n).zip (padPre op n))

/-- Model of `Version.Compare`: major, minor, patch, then prerelease
(an absent prerelease sorts above any present one); metadata is ignored. -/
def compareSemVer (a b : SemVer) : Ordering :=
  if a.major ≠ b.major then compareNat a.major b.major
  else if a.minor ≠ b.minor then compareNat a.minor b.minor
  else if a.patch ≠ b.patch then compareNat a.patch b.patch
  else if a.pre = [] && b.pre = [] then .eq
  else if a.pre = [] then .gt
  else if b.pre = [] then .lt
  else comparePrerelease a.pre b.pre

/-- Non-strict version order (`¬ LessThan b a`), the order in which
`sort.Sort(semver.Collection(vs))` arranges the slice ascending. -/
def semverLE (a b : SemVer) : Bool :=
  compareSemVer a b ≠ .gt

/-! ## Version constraints (model of Masterminds semver v1, `constraints.go`)

Restricted to the exact-version bounds the resolver's constraints use:
wildcard components (`1.x`, `*`) and hyphen ranges are not modelled, so a
string using them is simply outside this model's domain of valid
constraints. -/

/-- Comparison operators of the v1 constraint syntax. -/
inductive ConstraintOp where
  | eq | neq | gt | lt | ge | le | tilde | caret
deriving DecidableEq, Repr

/-- One operator applied to one version. -/
structure SimpleConstraint where
  op : ConstraintOp
  ver : SemVer
deriving DecidableEq, Repr

/-- A disjunction (split on `||`) of conjunctions (split on `,`). -/
structure Constraints where
  groups : List (List SimpleConstraint)
deriving DecidableEq, Repr

/-- Extract the leading operator, longest first, as the library's
constraint regular expression matches it; no operator means `=`. -/
def parseOp : List Char → ConstraintOp × List Char
  | '>' :: '=' :: rest => (.ge, rest)
  | '=' :: '>' :: rest => (.ge, rest)
  | '<' :: '=' :: rest => (.le, rest)
  | '=' :: '<' :: rest => (.le, rest)
  | '!' :: '=' :: rest => (.neq, rest)
  | '~' :: '>' :: rest => (.tilde, rest)
  | '>' :: rest => (.gt, rest)
  | '<' :: rest => (.lt, rest)
  | '=' :: rest => (.eq, rest)
  | '~' :: rest => (.tilde, rest)
  | '^' :: rest => (.caret, rest)
  | l => (.eq, l)

/-- Parse one comma-separated constraint: optional whitespace, operator,
optional whitespace, version. -/
def parseSimpleConstraint (l : List Char) : Option SimpleConstraint :=
  let t := trimChars l
  let (op, rest) := parseOp t
  let rest2 := trimChars rest
  (semverNewVersionCore rest2 (String.mk rest2)).map (fun v => ⟨op, v⟩)

/-- Model of `semver.NewConstraint`: split on `||`, then on `,`, and parse
every part; any malformed part makes the whole constraint invalid. -/
def semverNewConstraint (s : String) : Option Constraints :=
  ((splitOnOrOr s.toList).mapM
    (fun g => (splitListOn ',' g).mapM parseSimpleConstraint)).map Constraints.mk

/-- Check one constraint against a version (library operator semantics for
exact bounds: `~` fixes major and minor above the bound, `^` fixes major
above the bound).  Every constraint function of the v1 library except the
non-wildcard `!=` starts with the prerelease-exclusion guard: a version
carrying a prerelease never satisfies a constraint whose bound carries
none (so `4.0.0-beta` does not satisfy `">=3.0.0"`). -/
def checkSimple (c : SimpleConstraint) (v : SemVer) : Bool :=
  match c.op with
  | .eq =>
    if v.pre ≠ [] && c.ver.pre = [] then false
    else compareSemVer v c.ver = .eq
  | .neq => compareSemVer v c.ver ≠ .eq
  | .gt =>
    if v.pre ≠ [] && c.ver.pre = [] then false
    else compareSemVer v c.ver = .gt
  | .lt =>
    if v.pre ≠ [] && c.ver.pre = [] then false
    else compareSemVer v c.ver = .lt
  | .ge =>
    if v.pre ≠ [] && c.ver.pre = [] then false
    else compareSemVer v c.ver ≠ .lt
  | .le =>
    if v.pre ≠ [] && c.ver.pre = [] then false
    else compareSemVer v c.ver ≠ .gt
  | .tilde =>
    if v.pre ≠ [] && c.ver.pre = [] then false
    else if compareSemVer v c.ver = .lt then false
    else if c.ver.major = 0 && c.ver.minor = 0 && c.ver.patch = 0 then true
    else if v.major ≠ c.ver.major then false
    else if v.minor ≠ c.ver.minor then false
    else true
  | .caret =>
    if v.pre ≠ [] && c.ver.pre = [] then false
    else if compareSemVer v c.ver = .lt then false
    else v.major = c.ver.major

/-- Model of `Constraints.Check`: some `||`-group has all its parts hold. -/
def checkConstraints (c : Constraints) (v : SemVer) : Bool :=
  c.groups.any (fun g => g.all (fun sc => checkSimple sc v))

/-! ## The resolver's version-selection pipeline (source lines 245-261) -/

/-- Source lines 245-253: parse every fetched tag, silently skipping tags
that are not valid semantic versions. -/
def parsedVersions (tags : List String) : List SemVer :=
  tags.filterMap semverNewVersion

/-- Ascending insertion of a version into a run of already-placed
versions. -/
def insertVersion (v : SemVer) : List SemVer → List SemVer
  | [] => [v]
  | w :: ws => if semverLE v w then v :: w :: ws else w :: insertVersion v ws

/-- Model of source line 255, `sort.Sort(semver.Collection(vs))`: arrange
the parsed versions ascending by `Version.LessThan`.  The relative order of
versions that compare equal is unspecified by `sort.Sort`; insertion sort
is one valid model. -/
def sortVersions (l : List SemVer) : List SemVer :=
  l.foldr insertVersion []

/-- Source lines 245-261: parse, sort ascending, then scan the whole sorted
slice, overwriting `addVer` with `v.Original()` on every constraint match;
`""` (the zero value) survives only if nothing matched. -/
def selectVersion (c : Constraints) (tags : List String) : String :=
  (sortVersions (parsedVersions tags)).foldl
    (fun addVer v => if checkConstraints c v then v.original else addVer) ""

/-! ## Data model of the reconciler -/

/-- Model of `v1beta1.PackageType` as the `switch dep.Type` at source lines
271-279 distinguishes it: the two recognized kinds and everything else. -/
inductive PackageType where
  | configuration
  | provider
  | invalid
deriving DecidableEq, Repr

/-- Modelled from the spec: a declared dependency constraint carried by an
implied graph node — target package identifier (image reference string),
semantic-version constraint string, and dependency kind (`v1beta1.Dependency`
is declared outside the source file). -/
structure Dependency where
  package : String
  constraints : String
  dtype : PackageType
deriving DecidableEq, Repr

/-- Modelled from the spec: `Dependency.Identifier()` names the dependency
by its package source string (used in log messages). -/
def Dependency.identifier (d : Dependency) : String :=
  d.package

/-- A node returned by the injected graph engine in its implied-node list.
`dag.Node` is an interface, and the reconciler type-asserts the first
implied node to `*v1beta1.Dependency` (source line 220); `other` stands for
any node of a different dynamic type, for which the assertion fails. -/
inductive GraphNode where
  | dep (d : Dependency)
  | other
deriving DecidableEq, Repr

/-- Modelled from the spec: one LockEntry of the persisted lock record
(identifier, source, resolved version, declared dependencies).  The
reconciler reads only the length of the package list; the entries
themselves flow into the injected graph engine. -/
structure LockPackage where
  identifier : String
  source : String
  version : String
  dependencies : List Dependency
deriving DecidableEq, Repr

/-- The persisted lock record (`v1beta1.Lock`), as the reconciler uses it. -/
structure Lock where
  packages : List LockPackage
deriving DecidableEq, Repr

/-- The two values the reconciler reads off a parsed image reference:
`ref.Context().RepositoryStr()` and `ref.String()` (source lines 285-286).
`name.ParseReference` itself is an external library call, modelled as a
collaborator function in the environment. -/
structure ImageRef where
  repositoryStr : String
  refString : String
deriving DecidableEq, Repr

/-- Result of `client.Get` on the lock: success, not-found (which
`resource.IgnoreNotFound` converts to a nil error), or any other error. -/
inductive GetErr where
  | notFound
  | other (msg : String)
deriving DecidableEq, Repr

/-- One reconciliation pass's collaborator responses: everything the
`Reconciler`'s injected dependencies (client, finalizer, DAG constructor,
reference parser, tag fetcher) answer during this pass.  A pass is a pure
function of this record. -/
structure Env where
  getLock : Except GetErr Lock
  removeFinalizerOk : Bool
  addFinalizerOk : Bool
  dagInit : Except String (List GraphNode)
  dagSort : Except String Unit
  parseReference : String → Option ImageRef
  tags : Except String (List String)
  createOk : Bool

/-- What a pass returns to the controller-runtime scheduler:
`(reconcile.Result{}, nil)`, `(reconcile.Result{RequeueAfter: d}, nil)`, or
`(reconcile.Result{}, err)` with a non-nil error. -/
inductive ReconcileResult where
  | done
  | requeueAfter (seconds : Nat)
  | error (msg : String)
deriving DecidableEq, Repr

/-- The concrete package kind the creation request is built with
(`&v1.Configuration{}` or `&v1.Provider{}`). -/
inductive PackageKind where
  | configuration
  | provider
deriving DecidableEq, Repr

/-- The creation request submitted to `client.Create` (source lines
285-290): kind, derived name, and `"<reference>:<version>"` source. -/
structure CreatedPackage where
  kind : PackageKind
  name : String
  source : String
deriving DecidableEq, Repr

/-- Observable collaborator calls made during a pass: which finalizer
operations ran, whether the graph was built and sorted, which reference the
tag fetcher was invoked on, every creation request submitted, and the debug
messages logged on failure branches. -/
structure Trace where
  removeFinalizerCalled : Bool := false
  addFinalizerCalled : Bool := false
  dagInitCalled : Bool := false
  sortCalled : Bool := false
  fetched : Option ImageRef := none
  created : List CreatedPackage := []
  logs : List String := []
deriving DecidableEq, Repr

/-- Outcome of a pass: a normal return to the scheduler, or a runtime
panic escaping the function. -/
inductive Outcome where
  | ok (res : ReconcileResult) (tr : Trace)
  | panicked (msg : String) (tr : Trace)
deriving DecidableEq, Repr

/-- The trace of collaborator calls, whether the pass returned or panicked. -/
def Outcome.summary : Outcome → Trace
  | .ok _ tr => tr
  | .panicked _ tr => tr

/-- Whether the pass handed the scheduler a non-nil error. -/
def Outcome.returnsNonNilError : Outcome → Bool
  | .ok (.error _) _ => true
  | _ => false

/-! ## Constants of the source file (lines 45-69) -/

/-- Source line 48: the retry delay for recoverable failures, in seconds. -/
def shortWait : Nat := 30

def errGetLock : String := "cannot get package lock"

def errAddFinalizer : String := "cannot add lock finalizer"

def errRemoveFinalizer : String := "cannot remove lock finalizer"

def errBuildDAG : String := "cannot build DAG"

def errSortDAG : String := "cannot sort DAG"

def errInvalidConstraint : String := "version constraint on dependency is invalid"

def errInvalidDependency : String := "dependency package is not valid"

def errFetchTags : String := "cannot fetch dependency package tags"

def errNoValidVersion : String := "cannot find a valid version for package constraints"

/-- Source line 66, `errNoValidVersionFmt` instantiated. -/
def errNoValidVersionMsg (depId constraints : String) : String :=
  "dependency (" ++ depId ++ ") does not have version in constraints (" ++ constraints ++ ")"

def errInvalidPackageType : String := "cannot create invalid package dependency type"

def errCreateDependency : String := "cannot create dependency package"

/-- The Go runtime's message for dereferencing a nil pointer. -/
def panicNilPointer : String := "runtime error: invalid memory address or nil pointer dereference"

/-! ## The reconciliation pass (source lines 161-296)

The Go body is a chain of early returns; it is staged here into one Lean
definition per region of the source, composed bottom-up, so that each claim
can be settled against the small definition it concerns. -/

/-- Trim dashes from both ends of a character list. -/
def trimCharsDash (l : List Char) : List Char :=
  ((l.dropWhile (fun c => c = '-')).reverse.dropWhile (fun c => c = '-')).reverse

/-- Modelled from the spec: `xpkg.ToDNSLabel` (declared outside the source
file) lossily normalizes the repository path into a cluster-safe name:
keep lowercase alphanumerics, turn separators into `-`, trim dashes at the
ends.  No claim constrains its exact output. -/
def toDNSLabel (s : String) : String :=
  String.mk (trimCharsDash ((s.toList.take 63).map (fun c =>
    if c.isAlphanum then c.toLower else '-')))

/-- Trace state after finalizer addition, graph build and sort all
succeeded (the state in which source lines 212-296 run). -/
def baseTrace : Trace :=
  { addFinalizerCalled := true, dagInitCalled := true, sortCalled := true }

/-- Source lines 281-286: the creation request — kind, a DNS-safe name
derived from the repository path, and source `"<reference>:<version>"`. -/
def mkPackage (k : PackageKind) (ref : ImageRef) (ver : String) : CreatedPackage :=
  ⟨k, toDNSLabel ref.repositoryStr, ref.refString ++ ":" ++ ver⟩

/-- Source lines 280-295: build the creation request and submit it; a
create error retries after `shortWait` with a nil error. -/
def createPackage (env : Env) (k : PackageKind) (ref : ImageRef) (ver : String) : Outcome :=
  if env.createOk then
    .ok .done { baseTrace with fetched := some ref, created := [mkPackage k ref ver] }
  else
    .ok (.requeueAfter shortWait)
      ⟨false, true, true, true, some ref, [mkPackage k ref ver], [errCreateDependency]⟩

/-- Log line of the no-valid-version branch (source line 266): the message
names the dependency and its constraint string. -/
def noValidVersionLog (d : Dependency) : String :=
  errNoValidVersion ++ ": " ++ errNoValidVersionMsg d.identifier d.constraints

/-- Source lines 225-295, entered with the first implied node successfully
asserted to a `Dependency`: parse the constraint, parse the image
reference, fetch tags, select a version, dispatch on the dependency kind,
and create the package. -/
def resolveAndCreate (env : Env) (d : Dependency) : Outcome :=
  match semverNewConstraint d.constraints with
  | none => .ok .done { baseTrace with logs := [errInvalidConstraint] }
  | some c =>
    match env.parseReference d.package with
    | none => .ok .done { baseTrace with logs := [errInvalidDependency] }
    | some ref =>
      match env.tags with
      | .error _ =>
        .ok (.requeueAfter shortWait)
          { baseTrace with fetched := some ref, logs := [errFetchTags] }
      | .ok ts =>
        if selectVersion c ts = "" then
          .ok .done { baseTrace with fetched := some ref, logs := [noValidVersionLog d] }
        else
          match d.dtype with
          | .invalid =>
            .ok .done { baseTrace with fetched := some ref, logs := [errInvalidPackageType] }
          | .configuration => createPackage env .configuration ref (selectVersion c ts)
          | .provider => createPackage env .provider ref (selectVersion c ts)

/-- Source lines 199-224: build the graph, refuse to continue on a build
or sort error, exit cleanly when nothing is implied, and type-assert the
first implied node.  When the assertion fails, `dep` is nil and the
`errors.Errorf(errMissingDependencyFmt, dep.Identifier())` argument of the
log call dereferences it, so the pass panics instead of returning. -/
def reconcileGraph (env : Env) : Outcome :=
  match env.dagInit with
  | .error e =>
    .ok (.error (errBuildDAG ++ ": " ++ e))
      { addFinalizerCalled := true, dagInitCalled := true }
  | .ok implied =>
    match env.dagSort with
    | .error e => .ok (.error (errSortDAG ++ ": " ++ e)) baseTrace
    | .ok _ =>
      match implied with
      | [] => .ok .done baseTrace
      | .other :: _ => .panicked panicNilPointer baseTrace
      | .dep d :: _ => resolveAndCreate env d

/-- Source lines 180-198: on an empty package list remove the finalizer
and stop; otherwise add the finalizer and continue to the graph stage.
Finalizer failures requeue after `shortWait` with a nil error. -/
def reconcileWithLock (env : Env) (lock : Lock) : Outcome :=
  match lock.packages with
  | [] =>
    if env.removeFinalizerOk then .ok .done { removeFinalizerCalled := true }
    else
      .ok (.requeueAfter shortWait)
        { removeFinalizerCalled := true, logs := [errRemoveFinalizer] }
  | _ :: _ =>
    if env.addFinalizerOk then reconcileGraph env
    else
      .ok (.requeueAfter shortWait)
        { addFinalizerCalled := true, logs := [errAddFinalizer] }

/-- Source lines 161-296, `Reconciler.Reconcile` as a function of the
collaborator responses.  A not-found lock returns `(Result{}, nil)`
because `resource.IgnoreNotFound` drops the error; any other get error is
returned non-nil to the scheduler. -/
def reconcile (env : Env) : Outcome :=
  match env.getLock with
  | .error .notFound => .ok .done { logs := [errGetLock] }
  | .error (.other e) =>
    .ok (.error (errGetLock ++ ": " ++ e)) { logs := [errGetLock] }
  | .ok lock => reconcileWithLock env lock

/-- The parsed form of the constraint `">=1.0.0,<2.0.0"`. -/
def c1Constraint : Constraints :=
  ⟨[[⟨.ge, ⟨1, 0, 0, [], [], "1.0.0"⟩⟩, ⟨.lt, ⟨2, 0, 0, [], [], "2.0.0"⟩⟩]]⟩

/-- A one-package lock record used by the concrete witnesses. -/
def witnessLock : Lock :=
  ⟨[⟨"crossplane/provider-a", "crossplane/provider-a", "v1.0.0", []⟩]⟩

/-! ## Lemmas about the version-selection pipeline -/

lemma comparePrePart_self (x : List Char) : comparePrePart x x = .eq := by
  simp [comparePrePart]

lemma comparePreParts_self (l : List (List Char)) : comparePreParts (l.zip l) = .eq := by
  induction l with
  | nil => rfl
  | cons x xs ih =>
    rw [List.zip_cons_cons]
    show (match comparePrePart x x with
      | .eq => comparePreParts (xs.zip xs)
      | r => r) = .eq
    rw [comparePrePart_self]
    exact ih

lemma comparePrerelease_self (p : List Char) : comparePrerelease p p = .eq := by
  unfold comparePrerelease
  simp [padPre, comparePreParts_self]

lemma compareSemVer_self (v : SemVer) : compareSemVer v v = .eq := by
  by_cases hp : v.pre = [] <;> simp [compareSemVer, hp, comparePrerelease_self]

lemma semverLE_refl (v : SemVer) : semverLE v v = true := by
  simp [semverLE, compareSemVer_self]

lemma mem_insertVersion {x v : SemVer} {l : List SemVer} :
    x ∈ insertVersion v l ↔ x = v ∨ x ∈ l := by
  induction l with
  | nil => simp [insertVersion]
  | cons w ws ih =>
    unfold insertVersion
    split
    · simp [List.mem_cons]
    · simp only [List.mem_cons, ih]
      tauto

lemma mem_sortVersions {x : SemVer} {l : List SemVer} :
    x ∈ sortVersions l ↔ x ∈ l := by
  induction l with
  | nil => simp [sortVersions]
  | cons w ws ih =>
    show x ∈ insertVersion w (sortVersions ws) ↔ _
    rw [mem_insertVersion, ih]
    simp [List.mem_cons]

lemma foldl_select (p : SemVer → Bool) (l : List SemVer) (init : String) :
    (l.foldl (fun a v => if p v then v.original else a) init = init ∧
      ∀ v ∈ l, p v = false) ∨
    (∃ l1 v l2, l = l1 ++ v :: l2 ∧ p v = true ∧ (∀ w ∈ l2, p w = false) ∧
      l.foldl (fun a v => if p v then v.original else a) init = v.original) := by
  induction l generalizing init with
  | nil => left; exact ⟨rfl, by simp⟩
  | cons w ws ih =>
    rw [List.foldl_cons]
    by_cases hw : p w = true
    · rw [if_pos hw]
      rcases ih w.original with ⟨h1, h2⟩ | ⟨l1, v, l2, he, hv, hl2, hr⟩
      · right
        exact ⟨[], w, ws, by simp, hw, h2, h1⟩
      · right
        exact ⟨w :: l1, v, l2, by rw [he]; rfl, hv, hl2, hr⟩
    · have hw' : p w = false := by revert hw; cases p w <;> simp
      rw [if_neg (by simp [hw'])]
      rcases ih init with ⟨h1, h2⟩ | ⟨l1, v, l2, he, hv, hl2, hr⟩
      · left
        refine ⟨h1, ?_⟩
        intro v hv
        rcases List.mem_cons.mp hv with h | h
        · rw [h]; exact hw'
        · exact h2 v h
      · right
        exact ⟨w :: l1, v, l2, by rw [he]; rfl, hv, hl2, hr⟩

lemma semverFromParts_original {parts : List (List Char)} {pre meta : List Char}
    {orig : String} {v : SemVer}
    (h : semverFromParts parts pre meta orig = some v) : v.original = orig := by
  unfold semverFromParts at h
  repeat' split at h
  all_goals first
    | exact Option.noConfusion h
    | (injection h with h1; rw [← h1])

lemma semverParseMain_original {core meta : List Char} {orig : String} {v : SemVer}
    (h : semverParseMain core meta orig = some v) : v.original = orig := by
  unfold semverParseMain at h
  split at h
  · exact Option.noConfusion h
  · exact semverFromParts_original h

lemma semverNewVersionCore_original {cs : List Char} {orig : String} {v : SemVer}
    (h : semverNewVersionCore cs orig = some v) : v.original = orig := by
  unfold semverNewVersionCore at h
  repeat' split at h
  all_goals first
    | exact Option.noConfusion h
    | exact semverParseMain_original h

lemma semverNewVersion_original {s : String} {v : SemVer}
    (h : semverNewVersion s = some v) : v.original = s :=
  semverNewVersionCore_original h

lemma semverNewVersion_empty : semverNewVersion "" = none := by decide

lemma mem_parsedVersions {tags : List String} {v : SemVer} (h : v ∈ parsedVersions tags) :
    v.original ∈ tags ∧ semverNewVersion v.original = some v := by
  rcases List.mem_filterMap.mp h with ⟨t, ht, hp⟩
  have ho := semverNewVersion_original hp
  exact ⟨ho ▸ ht, ho ▸ hp⟩

lemma parsed_original_ne_empty {tags : List String} {v : SemVer}
    (h : v ∈ parsedVersions tags) : v.original ≠ "" := by
  intro he
  have h2 := (mem_parsedVersions h).2
  rw [he, semverNewVersion_empty] at h2
  exact Option.noConfusion h2

lemma selectVersion_empty_iff (c : Constraints) (tags : List String) :
    selectVersion c tags = "" ↔ ∀ v ∈ parsedVersions tags, checkConstraints c v = false := by
  constructor
  · intro hsel v hv
    rcases foldl_select (checkConstraints c) (sortVersions (parsedVersions tags)) "" with
      ⟨h1, h2⟩ | ⟨l1, w, l2, he, hw, hl2, hr⟩
    · exact h2 v (mem_sortVersions.mpr hv)
    · have hwmem : w ∈ parsedVersions tags := mem_sortVersions.mp (by rw [he]; simp)
      unfold selectVersion at hsel
      rw [hsel] at hr
      exact absurd hr.symm (parsed_original_ne_empty hwmem)
  · intro hnone
    rcases foldl_select (checkConstraints c) (sortVersions (parsedVersions tags)) "" with
      ⟨h1, _⟩ | ⟨l1, w, l2, he, hw, hl2, hr⟩
    · unfold selectVersion
      exact h1
    · have hwmem : w ∈ parsedVersions tags := mem_sortVersions.mp (by rw [he]; simp)
      have hf := hnone w hwmem
      rw [hw] at hf
      exact Bool.noConfusion hf

lemma selectVersion_spec {c : Constraints} {tags : List String}
    (h : selectVersion c tags ≠ "") :
    ∃ v ∈ parsedVersions tags, checkConstraints c v = true ∧
      v.original = selectVersion c tags ∧ selectVersion c tags ∈ tags := by
  rcases foldl_select (checkConstraints c) (sortVersions (parsedVersions tags)) "" with
    ⟨h1, _⟩ | ⟨l1, w, l2, he, hw, hl2, hr⟩
  · exact absurd (by unfold selectVersion; exact h1) h
  · have hwmem : w ∈ parsedVersions tags := mem_sortVersions.mp (by rw [he]; simp)
    have horig : selectVersion c tags = w.original := by
      unfold selectVersion
      exact hr
    refine ⟨w, hwmem, hw, horig.symm, ?_⟩
    rw [horig]
    exact (mem_parsedVersions hwmem).1

/-! ## Claim C1 -/

/-- C1.  Version selection: for every valid constraint string and every
collection of raw tag strings, the resolver parses each tag as a semantic
version, silently skipping tags that fail to parse (the sorted list holds
exactly the parsed versions, and an unparseable tag contributes nothing),
and the last match of the ascending linear scan is the highest parsed
version satisfying the constraint: whenever the sort produced an ascending
list — the library's comparison always does so except on prerelease tags
with non-canonical numeric identifiers, where the comparison is not
transitive and "ascending" is not well defined — a non-empty selection is
the `Original()` string of a satisfying parsed version that is `≥` every
satisfying parsed version, and the selection is empty iff no parsed tag
satisfies the constraint.  In particular, for constraint `">=1.0.0,<2.0.0"`
and tags `{"0.9.0","1.0.0","1.5.2","2.0.0","not-a-version"}` it selects
`"1.5.2"`. -/
theorem c1_version_selection (cs : String) (c : Constraints) (tags : List String)
    (hc : semverNewConstraint cs = some c) :
    (∀ v, v ∈ sortVersions (parsedVersions tags) ↔ v ∈ parsedVersions tags) ∧
    (∀ t ∈ tags, semverNewVersion t = none → ∀ v ∈ parsedVersions tags, v.original ≠ t) ∧
    (selectVersion c tags = "" ↔ ∀ v ∈ parsedVersions tags, checkConstraints c v = false) ∧
    ((sortVersions (parsedVersions tags)).Pairwise (fun a b => semverLE a b = true) →
      selectVersion c tags ≠ "" →
      ∃ v ∈ parsedVersions tags, checkConstraints c v = true ∧
        v.original = selectVersion c tags ∧
        ∀ w ∈ parsedVersions tags, checkConstraints c w = true → semverLE w v = true) ∧
    (∀ c2, semverNewConstraint ">=1.0.0,<2.0.0" = some c2 →
      selectVersion c2 ["0.9.0", "1.0.0", "1.5.2", "2.0.0", "not-a-version"] = "1.5.2") := by
  refine ⟨fun v => mem_sortVersions, ?_, ?_, ?_, ?_⟩
  · intro t ht hnone v hv he
    have h2 := (mem_parsedVersions hv).2
    rw [he, hnone] at h2
    exact Option.noConfusion h2
  · exact selectVersion_empty_iff c tags
  · intro hsorted hne
    rcases foldl_select (checkConstraints c) (sortVersions (parsedVersions tags)) "" with
      ⟨h1, _⟩ | ⟨l1, w, l2, he, hwp, hl2, hr⟩
    · exact absurd (by unfold selectVersion; exact h1) hne
    · refine ⟨w, mem_sortVersions.mp (by rw [he]; simp), hwp, ?_, ?_⟩
      · unfold selectVersion
        exact hr.symm
      · intro u hu hcu
        have hus : u ∈ sortVersions (parsedVersions tags) := mem_sortVersions.mpr hu
        rw [he] at hus hsorted
        rcases List.mem_append.mp hus with h | h
        · exact (List.pairwise_append.mp hsorted).2.2 u h w (by simp)
        · rcases List.mem_cons.mp h with h | h
          · rw [h]
            exact semverLE_refl w
          · have := hl2 u h
            rw [hcu] at this
            exact Bool.noConfusion this
  · intro c2 h2
    have h3 : semverNewConstraint ">=1.0.0,<2.0.0" = some c1Constraint := by decide
    rw [h2] at h3
    injection h3 with h4
    rw [h4]
    decide

/-- Witness for C1: at the claim's concrete constraint and tag collection,
the sortedness and non-emptiness hypotheses hold by evaluation, and the
selected version is a maximal satisfying parsed version. -/
theorem c1_version_selection_witness :
    ∃ v ∈ parsedVersions ["0.9.0", "1.0.0", "1.5.2", "2.0.0", "not-a-version"],
      checkConstraints c1Constraint v = true ∧
      v.original =
        selectVersion c1Constraint ["0.9.0", "1.0.0", "1.5.2", "2.0.0", "not-a-version"] ∧
      ∀ w ∈ parsedVersions ["0.9.0", "1.0.0", "1.5.2", "2.0.0", "not-a-version"],
        checkConstraints c1Constraint w = true → semverLE w v = true :=
  (c1_version_selection ">=1.0.0,<2.0.0" c1Constraint
    ["0.9.0", "1.0.0", "1.5.2", "2.0.0", "not-a-version"] (by decide)).2.2.2.1
    (by decide) (by decide)

/-- Prerelease exclusion in action, as in the v1 library: over
`{"1.0.0","2.0.0-rc.1"}` the constraint `">=1.0.0"` selects `"1.0.0"`,
not the prerelease. -/
example :
    selectVersion ⟨[[⟨.ge, ⟨1, 0, 0, [], [], "1.0.0"⟩⟩]]⟩ ["1.0.0", "2.0.0-rc.1"] = "1.0.0" := by
  decide

/-- A version with a prerelease never satisfies a bound without one:
`4.0.0-beta` does not satisfy `">=3.0.0"`. -/
example :
    ∀ v, semverNewVersion "4.0.0-beta" = some v →
      checkConstraints ⟨[[⟨.ge, ⟨3, 0, 0, [], [], "3.0.0"⟩⟩]]⟩ v = false := by
  decide

/-! ## Lemmas about the staged reconciliation pass -/

lemma reconcile_ok_lock {env : Env} {l : Lock} (hg : env.getLock = .ok l) :
    reconcile env = reconcileWithLock env l := by
  unfold reconcile
  rw [hg]

lemma reconcileWithLock_nonempty {env : Env} {l : Lock} (hne : l.packages ≠ [])
    (haf : env.addFinalizerOk = true) :
    reconcileWithLock env l = reconcileGraph env := by
  unfold reconcileWithLock
  cases h : l.packages with
  | nil => exact absurd h hne
  | cons p ps => rw [haf]; simp

lemma reconcileGraph_dep {env : Env} {d : Dependency} {rest : List GraphNode}
    (hi : env.dagInit = .ok (GraphNode.dep d :: rest)) (hs : env.dagSort = .ok ()) :
    reconcileGraph env = resolveAndCreate env d := by
  unfold reconcileGraph
  rw [hi, hs]

lemma reconcile_reaches_dep {env : Env} {l : Lock} {d : Dependency} {rest : List GraphNode}
    (hg : env.getLock = .ok l) (hne : l.packages ≠ []) (haf : env.addFinalizerOk = true)
    (hi : env.dagInit = .ok (GraphNode.dep d :: rest)) (hs : env.dagSort = .ok ()) :
    reconcile env = resolveAndCreate env d := by
  rw [reconcile_ok_lock hg, reconcileWithLock_nonempty hne haf, reconcileGraph_dep hi hs]

lemma resolveAndCreate_clean (env : Env) (d : Dependency) :
    ∃ tr, resolveAndCreate env d = .ok .done tr ∨
      resolveAndCreate env d = .ok (.requeueAfter shortWait) tr := by
  unfold resolveAndCreate createPackage
  repeat' split
  all_goals first
    | exact ⟨_, Or.inl rfl⟩
    | exact ⟨_, Or.inr rfl⟩

lemma resolveAndCreate_shape (env : Env) (d : Dependency) :
    ((resolveAndCreate env d).summary.created = [] ∧
      (resolveAndCreate env d).summary.fetched = none) ∨
    (∃ ref, env.parseReference d.package = some ref ∧
      (resolveAndCreate env d).summary.created = [] ∧
      (resolveAndCreate env d).summary.fetched = some ref) ∨
    (∃ ref c ts k, env.parseReference d.package = some ref ∧
      semverNewConstraint d.constraints = some c ∧ env.tags = .ok ts ∧
      selectVersion c ts ≠ "" ∧
      (resolveAndCreate env d).summary.fetched = some ref ∧
      (resolveAndCreate env d).summary.created = [mkPackage k ref (selectVersion c ts)]) := by
  unfold resolveAndCreate
  cases hc : semverNewConstraint d.constraints with
  | none => left; exact ⟨rfl, rfl⟩
  | some c =>
    cases hr : env.parseReference d.package with
    | none => left; exact ⟨rfl, rfl⟩
    | some ref =>
      cases ht : env.tags with
      | error e => right; left; exact ⟨ref, rfl, rfl, rfl⟩
      | ok ts =>
        dsimp only
        by_cases hsel : selectVersion c ts = ""
        · rw [if_pos hsel]
          right; left; exact ⟨ref, rfl, rfl, rfl⟩
        · rw [if_neg hsel]
          unfold createPackage
          cases hd : d.dtype with
          | invalid => right; left; exact ⟨ref, rfl, rfl, rfl⟩
          | configuration =>
            cases hco : env.createOk with
            | true =>
              right; right
              exact ⟨ref, c, ts, .configuration, rfl, rfl, rfl, hsel, rfl, rfl⟩
            | false =>
              right; right
              exact ⟨ref, c, ts, .configuration, rfl, rfl, rfl, hsel, rfl, rfl⟩
          | provider =>
            cases hco : env.createOk with
            | true =>
              right; right
              exact ⟨ref, c, ts, .provider, rfl, rfl, rfl, hsel, rfl, rfl⟩
            | false =>
              right; right
              exact ⟨ref, c, ts, .provider, rfl, rfl, rfl, hsel, rfl, rfl⟩

/-! ## Claim C2 -/

/-- C2.  Cycle safety: for every lock state whose dependency graph contains
a cycle (the graph Sort step returns an error), the pass returns
immediately after the sort — with the wrapped sort error — and no package
creation call is made and the tag fetcher is never invoked, regardless of
whether implied nodes exist. -/
theorem c2_cycle_safety (env : Env) (l : Lock) (implied : List GraphNode) (e : String)
    (hg : env.getLock = .ok l) (hne : l.packages ≠ [])
    (haf : env.addFinalizerOk = true)
    (hi : env.dagInit = .ok implied) (hs : env.dagSort = .error e) :
    ∃ tr, reconcile env = .ok (.error (errSortDAG ++ ": " ++ e)) tr ∧
      tr.created = [] ∧ tr.fetched = none := by
  refine ⟨baseTrace, ?_, rfl, rfl⟩
  rw [reconcile_ok_lock hg, reconcileWithLock_nonempty hne haf]
  unfold reconcileGraph
  rw [hi, hs]

/-- Witness for C2: a concrete pass whose graph sort reports a cycle, with
an implied node present. -/
theorem c2_cycle_safety_witness :
    ∃ tr,
      reconcile
        { getLock := .ok witnessLock, removeFinalizerOk := true, addFinalizerOk := true,
          dagInit := .ok [GraphNode.dep ⟨"crossplane/provider-b", ">=1.0.0", .provider⟩],
          dagSort := .error "circular dependency",
          parseReference := fun _ => none, tags := .ok [], createOk := true }
        = .ok (.error (errSortDAG ++ ": " ++ "circular dependency")) tr ∧
      tr.created = [] ∧ tr.fetched = none :=
  c2_cycle_safety _ witnessLock [GraphNode.dep ⟨"crossplane/provider-b", ">=1.0.0", .provider⟩]
    "circular dependency" rfl (by simp [witnessLock]) rfl rfl rfl

/-! ## Claim C3 -/

/-- C3.  Single-step progress: for every pass over an acyclic graph with at
least one implied node, at most one creation call is attempted; any created
package is built from the first implied node `n0` (its parsed reference,
its constraint, and the version selected from the fetched tags), and the
only reference the tag fetcher is ever invoked on is the one parsed from
`n0`'s package string. -/
theorem c3_single_step (env : Env) (l : Lock) (n0 : GraphNode) (rest : List GraphNode)
    (hg : env.getLock = .ok l) (hne : l.packages ≠ []) (haf : env.addFinalizerOk = true)
    (hi : env.dagInit = .ok (n0 :: rest)) (hs : env.dagSort = .ok ()) :
    (reconcile env).summary.created.length ≤ 1 ∧
    (∀ p ∈ (reconcile env).summary.created,
      ∃ d ref c ts, n0 = GraphNode.dep d ∧
        env.parseReference d.package = some ref ∧
        semverNewConstraint d.constraints = some c ∧
        env.tags = .ok ts ∧ selectVersion c ts ≠ "" ∧
        p.name = toDNSLabel ref.repositoryStr ∧
        p.source = ref.refString ++ ":" ++ selectVersion c ts) ∧
    ((reconcile env).summary.fetched = none ∨
      ∃ d ref, n0 = GraphNode.dep d ∧ env.parseReference d.package = some ref ∧
        (reconcile env).summary.fetched = some ref) := by
  cases n0 with
  | other =>
    have hrec : reconcile env = .panicked panicNilPointer baseTrace := by
      rw [reconcile_ok_lock hg, reconcileWithLock_nonempty hne haf]
      unfold reconcileGraph
      rw [hi, hs]
    rw [hrec]
    refine ⟨by simp [Outcome.summary, baseTrace], ?_, Or.inl rfl⟩
    intro p hp
    simp [Outcome.summary, baseTrace] at hp
  | dep d =>
    rw [reconcile_reaches_dep hg hne haf hi hs]
    rcases resolveAndCreate_shape env d with
      ⟨h1, h2⟩ | ⟨ref, hr, h1, h2⟩ | ⟨ref, c, ts, k, hr, hc, ht, hsel, hf, hcr⟩
    · refine ⟨by rw [h1]; simp, ?_, Or.inl h2⟩
      intro p hp
      rw [h1] at hp
      simp at hp
    · refine ⟨by rw [h1]; simp, ?_, Or.inr ⟨d, ref, rfl, hr, h2⟩⟩
      intro p hp
      rw [h1] at hp
      simp at hp
    · refine ⟨by rw [hcr]; simp, ?_, Or.inr ⟨d, ref, rfl, hr, hf⟩⟩
      intro p hp
      rw [hcr, List.mem_singleton] at hp
      subst hp
      exact ⟨d, ref, c, ts, rfl, hr, hc, ht, hsel, rfl, rfl⟩

/-- Witness for C3: a concrete pass that creates the first (and only)
implied dependency. -/
theorem c3_single_step_witness :
    (reconcile
      { getLock := .ok witnessLock, removeFinalizerOk := true, addFinalizerOk := true,
        dagInit := .ok [GraphNode.dep ⟨"crossplane/provider-b", ">=1.0.0", .provider⟩],
        dagSort := .ok (),
        parseReference := fun _ => some ⟨"crossplane/provider-b", "crossplane/provider-b"⟩,
        tags := .ok ["1.0.0"], createOk := true }).summary.created.length ≤ 1 :=
  (c3_single_step _ witnessLock
    (GraphNode.dep ⟨"crossplane/provider-b", ">=1.0.0", .provider⟩) []
    rfl (by simp [witnessLock]) rfl rfl rfl).1

/-! ## Claim C4 -/

/-- Counterexample to C4 as stated: a pass over a lock whose graph sort
reports a cycle hands the scheduler a non-nil error (source line 209), not
"done" or "retry after d". -/
theorem c4_counterexample :
    Outcome.returnsNonNilError
      (reconcile
        { getLock := .ok witnessLock, removeFinalizerOk := true, addFinalizerOk := true,
          dagInit := .ok [], dagSort := .error "circular dependency",
          parseReference := fun _ => none, tags := .ok [], createOk := true }) = true := rfl

/-- C4 as amended: the pass returns only "done" or "retry after shortWait"
with a nil error for every collaborator failure mode except three — a lock
get failure other than not-found, a graph build error, and a graph sort
(cycle) error are returned to the scheduler as non-nil errors (source lines
173, 202, 209), and a non-Dependency first implied node panics (source
line 222) rather than returning at all. -/
theorem c4_return_discipline (env : Env)
    (hget : ∀ e, env.getLock ≠ .error (.other e))
    (hinit : ∀ e, env.dagInit ≠ .error e)
    (hsort : ∀ e, env.dagSort ≠ .error e)
    (hdep : ∀ rest, env.dagInit ≠ .ok (GraphNode.other :: rest)) :
    ∃ tr, reconcile env = .ok .done tr ∨
      reconcile env = .ok (.requeueAfter shortWait) tr := by
  unfold reconcile
  cases hg : env.getLock with
  | error ge =>
    cases ge with
    | notFound => exact ⟨_, Or.inl rfl⟩
    | other e => exact absurd hg (hget e)
  | ok l =>
    dsimp only
    unfold reconcileWithLock
    cases l.packages with
    | nil =>
      cases env.removeFinalizerOk
      · exact ⟨_, Or.inr rfl⟩
      · exact ⟨_, Or.inl rfl⟩
    | cons p ps =>
      cases env.addFinalizerOk
      · exact ⟨_, Or.inr rfl⟩
      · dsimp only
        unfold reconcileGraph
        cases hi : env.dagInit with
        | error e => exact absurd hi (hinit e)
        | ok implied =>
          dsimp only
          cases hs : env.dagSort with
          | error e => exact absurd hs (hsort e)
          | ok u =>
            dsimp only
            cases implied with
            | nil => exact ⟨_, Or.inl rfl⟩
            | cons n0 rest =>
              cases n0 with
              | other => exact absurd hi (hdep rest)
              | dep d => exact resolveAndCreate_clean env d

/-- Witness for C4's amended statement at a concrete fully-converged pass. -/
theorem c4_return_discipline_witness :
    ∃ tr,
      reconcile
        { getLock := .ok witnessLock, removeFinalizerOk := true, addFinalizerOk := true,
          dagInit := .ok [], dagSort := .ok (),
          parseReference := fun _ => none, tags := .ok [], createOk := true }
        = .ok .done tr ∨
      reconcile
        { getLock := .ok witnessLock, removeFinalizerOk := true, addFinalizerOk := true,
          dagInit := .ok [], dagSort := .ok (),
          parseReference := fun _ => none, tags := .ok [], createOk := true }
        = .ok (.requeueAfter shortWait) tr :=
  c4_return_discipline _ (fun e h => by simp at h) (fun e h => by simp at h)
    (fun e h => by simp at h) (fun rest h => by simp at h)

/-! ## Claim C5 -/

/-- C5 (code bug).  When the first implied node is not a
`*v1beta1.Dependency`, the type assertion at source line 220 leaves `dep`
nil, and the log call at line 222 evaluates `dep.Identifier()` on the nil
pointer while building its arguments: the pass panics instead of handling
the failure locally as the branch intends (log and `return
reconcile.Result{}, nil`).  This theorem evaluates the pass at such an
input. -/
theorem c5_nil_dependency_panic :
    reconcile
      { getLock := .ok witnessLock, removeFinalizerOk := true, addFinalizerOk := true,
        dagInit := .ok [GraphNode.other], dagSort := .ok (),
        parseReference := fun _ => none, tags := .ok [], createOk := true }
      = .panicked panicNilPointer baseTrace := rfl

/-! ## Claim C6 -/

/-- C6.  No-valid-version handling: whenever the pass reaches version
selection (first implied node is a Dependency, constraint and reference
parse, tags fetched) and no successfully parsed tag satisfies the
constraint — including when no tag parses at all — the pass logs the
no-valid-version failure naming the dependency and the constraint, exits
cleanly with no requeue, and makes no creation call. -/
theorem c6_no_valid_version (env : Env) (l : Lock) (d : Dependency) (rest : List GraphNode)
    (c : Constraints) (ref : ImageRef) (ts : List String)
    (hg : env.getLock = .ok l) (hne : l.packages ≠ []) (haf : env.addFinalizerOk = true)
    (hi : env.dagInit = .ok (GraphNode.dep d :: rest)) (hs : env.dagSort = .ok ())
    (hc : semverNewConstraint d.constraints = some c)
    (hr : env.parseReference d.package = some ref)
    (ht : env.tags = .ok ts)
    (hnv : ∀ v ∈ parsedVersions ts, checkConstraints c v = false) :
    ∃ tr, reconcile env = .ok .done tr ∧ tr.created = [] ∧
      (errNoValidVersion ++ ": " ++ errNoValidVersionMsg d.package d.constraints) ∈ tr.logs := by
  have hsel : selectVersion c ts = "" := (selectVersion_empty_iff c ts).mpr hnv
  rw [reconcile_reaches_dep hg hne haf hi hs]
  unfold resolveAndCreate
  rw [hc]
  dsimp only
  rw [hr]
  dsimp only
  rw [ht]
  dsimp only
  rw [if_pos hsel]
  exact ⟨_, rfl, rfl, by simp [noValidVersionLog, Dependency.identifier]⟩

/-- Witness for C6: constraint `">=3.0.0"` with tags `{"1.0.0","2.0.0"}`. -/
theorem c6_no_valid_version_witness :
    ∃ tr,
      reconcile
        { getLock := .ok witnessLock, removeFinalizerOk := true, addFinalizerOk := true,
          dagInit := .ok [GraphNode.dep ⟨"crossplane/provider-b", ">=3.0.0", .provider⟩],
          dagSort := .ok (),
          parseReference := fun _ => some ⟨"crossplane/provider-b", "crossplane/provider-b"⟩,
          tags := .ok ["1.0.0", "2.0.0"], createOk := true }
        = .ok .done tr ∧ tr.created = [] ∧
      (errNoValidVersion ++ ": " ++ errNoValidVersionMsg "crossplane/provider-b" ">=3.0.0")
        ∈ tr.logs :=
  c6_no_valid_version _ witnessLock ⟨"crossplane/provider-b", ">=3.0.0", .provider⟩ []
    ⟨[[⟨.ge, ⟨3, 0, 0, [], [], "3.0.0"⟩⟩]]⟩ ⟨"crossplane/provider-b", "crossplane/provider-b"⟩
    ["1.0.0", "2.0.0"] rfl (by simp [witnessLock]) rfl rfl rfl (by decide) rfl rfl (by decide)

/-! ## Claim C7 -/

/-- C7.  Finalizer lifecycle on an empty lock: a pass over a lock with an
empty package list attempts finalizer removal and performs no graph
construction, no sort, no tag fetch, and no creation call; if removal
fails the pass requeues after `shortWait` with a nil error, and if it
succeeds it exits cleanly with no requeue. -/
theorem c7_finalizer_empty_lock (env : Env) (l : Lock)
    (hg : env.getLock = .ok l) (he : l.packages = []) :
    ∃ tr, reconcile env =
        .ok (if env.removeFinalizerOk then .done else .requeueAfter shortWait) tr ∧
      tr.removeFinalizerCalled = true ∧ tr.addFinalizerCalled = false ∧
      tr.dagInitCalled = false ∧ tr.sortCalled = false ∧
      tr.fetched = none ∧ tr.created = [] := by
  rw [reconcile_ok_lock hg]
  unfold reconcileWithLock
  rw [he]
  cases hr : env.removeFinalizerOk with
  | true => exact ⟨{ removeFinalizerCalled := true }, by simp, rfl, rfl, rfl, rfl, rfl, rfl⟩
  | false =>
    exact ⟨{ removeFinalizerCalled := true, logs := [errRemoveFinalizer] },
      by simp, rfl, rfl, rfl, rfl, rfl, rfl⟩

/-- Witness for C7: a concrete empty-lock pass whose finalizer removal
fails, hence a `shortWait` requeue with nil error. -/
theorem c7_finalizer_empty_lock_witness :
    ∃ tr,
      reconcile
        { getLock := .ok ⟨[]⟩, removeFinalizerOk := false, addFinalizerOk := true,
          dagInit := .ok [], dagSort := .ok (),
          parseReference := fun _ => none, tags := .ok [], createOk := true }
        = .ok (.requeueAfter shortWait) tr ∧
      tr.removeFinalizerCalled = true ∧ tr.addFinalizerCalled = false ∧
      tr.dagInitCalled = false ∧ tr.sortCalled = false ∧
      tr.fetched = none ∧ tr.created = [] :=
  c7_finalizer_empty_lock _ ⟨[]⟩ rfl rfl

/-! ## Claim C8 -/

/-- C8.  Original-string round-trip: on the successful creation path the
single created package's source is exactly `"<reference>:<version>"` where
the version is the selected version's `Original()` string — one of the raw
fetched tags, byte for byte (never a re-serialized canonical form). -/
theorem c8_original_roundtrip (env : Env) (l : Lock) (d : Dependency) (rest : List GraphNode)
    (c : Constraints) (ref : ImageRef) (ts : List String)
    (hg : env.getLock = .ok l) (hne : l.packages ≠ []) (haf : env.addFinalizerOk = true)
    (hi : env.dagInit = .ok (GraphNode.dep d :: rest)) (hs : env.dagSort = .ok ())
    (hc : semverNewConstraint d.constraints = some c)
    (hr : env.parseReference d.package = some ref)
    (ht : env.tags = .ok ts)
    (hsel : selectVersion c ts ≠ "")
    (hkind : d.dtype = PackageType.configuration ∨ d.dtype = PackageType.provider) :
    ∃ p, (reconcile env).summary.created = [p] ∧
      p.source = ref.refString ++ ":" ++ selectVersion c ts ∧
      selectVersion c ts ∈ ts ∧
      ∃ v ∈ parsedVersions ts, checkConstraints c v = true ∧
        v.original = selectVersion c ts := by
  rcases selectVersion_spec hsel with ⟨v, hv, hcv, hov, hmem⟩
  rw [reconcile_reaches_dep hg hne haf hi hs]
  unfold resolveAndCreate
  rw [hc]
  dsimp only
  rw [hr]
  dsimp only
  rw [ht]
  dsimp only
  rw [if_neg hsel]
  rcases hkind with hk | hk <;> rw [hk] <;> unfold createPackage <;>
    cases hco : env.createOk <;>
    exact ⟨_, rfl, rfl, hmem, v, hv, hcv, hov⟩

/-- Witness for C8: the tag `"v1.2.0"` round-trips into the created source
`"crossplane/provider-b:v1.2.0"`, keeping the `v` prefix that a canonical
re-serialization (`"1.2.0"`) would drop. -/
theorem c8_original_roundtrip_witness :
    selectVersion ⟨[[⟨.ge, ⟨1, 0, 0, [], [], "1.0.0"⟩⟩]]⟩ ["v1.2.0"] = "v1.2.0" ∧
    ∃ p,
      (reconcile
        { getLock := .ok witnessLock, removeFinalizerOk := true, addFinalizerOk := true,
          dagInit := .ok [GraphNode.dep ⟨"crossplane/provider-b", ">=1.0.0", .provider⟩],
          dagSort := .ok (),
          parseReference := fun _ => some ⟨"crossplane/provider-b", "crossplane/provider-b"⟩,
          tags := .ok ["v1.2.0"], createOk := true }).summary.created = [p] ∧
      p.source = "crossplane/provider-b" ++ ":" ++
        selectVersion ⟨[[⟨.ge, ⟨1, 0, 0, [], [], "1.0.0"⟩⟩]]⟩ ["v1.2.0"] ∧
      selectVersion ⟨[[⟨.ge, ⟨1, 0, 0, [], [], "1.0.0"⟩⟩]]⟩ ["v1.2.0"] ∈ ["v1.2.0"] ∧
      ∃ v ∈ parsedVersions ["v1.2.0"],
        checkConstraints ⟨[[⟨.ge, ⟨1, 0, 0, [], [], "1.0.0"⟩⟩]]⟩ v = true ∧
        v.original = selectVersion ⟨[[⟨.ge, ⟨1, 0, 0, [], [], "1.0.0"⟩⟩]]⟩ ["v1.2.0"] :=
  ⟨by decide,
    c8_original_roundtrip _ witnessLock ⟨"crossplane/provider-b", ">=1.0.0", .provider⟩ []
      ⟨[[⟨.ge, ⟨1, 0, 0, [], [], "1.0.0"⟩⟩]]⟩ ⟨"crossplane/provider-b", "crossplane/provider-b"⟩
      ["v1.2.0"] rfl (by simp [witnessLock]) rfl rfl rfl (by decide) rfl rfl (by decide)
      (Or.inr rfl)⟩

/-! ## Claim C9 -/

/-- C9.  Invalid dependency kind: when the pass reaches the kind dispatch
(a version was selected) and the first implied dependency's kind is
neither Configuration nor Provider, the pass logs the invalid-package-type
failure and exits cleanly — no requeue delay and no creation call. -/
theorem c9_invalid_kind (env : Env) (l : Lock) (d : Dependency) (rest : List GraphNode)
    (c : Constraints) (ref : ImageRef) (ts : List String)
    (hg : env.getLock = .ok l) (hne : l.packages ≠ []) (haf : env.addFinalizerOk = true)
    (hi : env.dagInit = .ok (GraphNode.dep d :: rest)) (hs : env.dagSort = .ok ())
    (hc : semverNewConstraint d.constraints = some c)
    (hr : env.parseReference d.package = some ref)
    (ht : env.tags = .ok ts)
    (hsel : selectVersion c ts ≠ "")
    (hkind : d.dtype = PackageType.invalid) :
    ∃ tr, reconcile env = .ok .done tr ∧ tr.created = [] ∧
      errInvalidPackageType ∈ tr.logs := by
  rw [reconcile_reaches_dep hg hne haf hi hs]
  unfold resolveAndCreate
  rw [hc]
  dsimp only
  rw [hr]
  dsimp only
  rw [ht]
  dsimp only
  rw [if_neg hsel, hkind]
  exact ⟨_, rfl, rfl, by simp⟩

/-- Witness for C9: a concrete pass whose first implied dependency has an
unrecognized kind and a selectable version. -/
theorem c9_invalid_kind_witness :
    ∃ tr,
      reconcile
        { getLock := .ok witnessLock, removeFinalizerOk := true, addFinalizerOk := true,
          dagInit := .ok [GraphNode.dep ⟨"crossplane/provider-b", ">=1.0.0", .invalid⟩],
          dagSort := .ok (),
          parseReference := fun _ => some ⟨"crossplane/provider-b", "crossplane/provider-b"⟩,
          tags := .ok ["1.0.0"], createOk := true }
        = .ok .done tr ∧ tr.created = [] ∧ errInvalidPackageType ∈ tr.logs :=
  c9_invalid_kind _ witnessLock ⟨"crossplane/provider-b", ">=1.0.0", .invalid⟩ []
    ⟨[[⟨.ge, ⟨1, 0, 0, [], [], "1.0.0"⟩⟩]]⟩ ⟨"crossplane/provider-b", "crossplane/provider-b"⟩
    ["1.0.0"] rfl (by simp [witnessLock]) rfl rfl rfl (by decide) rfl rfl (by decide) rfl

/-! ## Claim C10 -/

/-- C10.  Unparseable image reference: when the first implied dependency's
constraint parses but its package image reference string does not, the
pass logs the failure and exits cleanly with no requeue, the tag fetcher
is never invoked, and no creation call is made. -/
theorem c10_unparseable_reference (env : Env) (l : Lock) (d : Dependency)
    (rest : List GraphNode) (c : Constraints)
    (hg : env.getLock = .ok l) (hne : l.packages ≠ []) (haf : env.addFinalizerOk = true)
    (hi : env.dagInit = .ok (GraphNode.dep d :: rest)) (hs : env.dagSort = .ok ())
    (hc : semverNewConstraint d.constraints = some c)
    (hr : env.parseReference d.package = none) :
    ∃ tr, reconcile env = .ok .done tr ∧ tr.fetched = none ∧ tr.created = [] ∧
      errInvalidDependency ∈ tr.logs := by
  rw [reconcile_reaches_dep hg hne haf hi hs]
  unfold resolveAndCreate
  rw [hc]
  dsimp only
  rw [hr]
  exact ⟨_, rfl, rfl, rfl, by simp⟩

/-- Witness for C10: a concrete pass whose first implied dependency has a
malformed package reference. -/
theorem c10_unparseable_reference_witness :
    ∃ tr,
      reconcile
        { getLock := .ok witnessLock, removeFinalizerOk := true, addFinalizerOk := true,
          dagInit := .ok [GraphNode.dep ⟨"not a valid reference", ">=1.0.0", .provider⟩],
          dagSort := .ok (),
          parseReference := fun _ => none, tags := .ok [], createOk := true }
        = .ok .done tr ∧ tr.fetched = none ∧ tr.created = [] ∧
      errInvalidDependency ∈ tr.logs :=
  c10_unparseable_reference _ witnessLock ⟨"not a valid reference", ">=1.0.0", .provider⟩ []
    ⟨[[⟨.ge, ⟨1, 0, 0, [], [], "1.0.0"⟩⟩]]⟩
    rfl (by simp [witnessLock]) rfl rfl rfl (by decide) rfl
